import Mathlib

/-
Shallow embedding of the FreeRTOS MQTT agent (source/core_mqtt_agent.c from
Lab-Project-FreeRTOS-SESIP).

The agent serializes MQTT operations through a bounded queue consumed by a
single worker task (prvMQTTAgentLoop).  Operations that await a broker
acknowledgment are parked in a fixed five-slot pending table
(addPendingOperation / getPendingOperation) keyed by packet identifier, and
resolved by MQTTAgent_ProcessEvent when the matching acknowledgment packet
arrives.

Modelling conventions:
  * The protocol engine (coreMQTT) is opaque; each dispatch consumes one
    `MQTTProtoResult` supplying the values MQTT_GetPacketId and the
    MQTT_Publish / MQTT_Subscribe / MQTT_Unsubscribe / MQTT_ProcessLoop call
    of that iteration would return.
  * A callback invocation is recorded as an `(opId, status)` event rather
    than executed.  Calling a NULL function pointer is modelled by the
    `halted` flag (the C program crashes; nothing after the call happens).
  * A configASSERT failure is likewise modelled by `halted := true`: the C
    macro stops the whole program, so no later effect of that iteration is
    observable.
  * The worker runs sequentially (no producer interleaves with a dispatch);
    the FreeRTOS queue is a `List` with front at the head, and the bounded
    `xQueueReceive` with a 1-tick timeout succeeds exactly when the queue is
    non-empty.
  * Machine integers (uint16_t packet identifiers, uint8_t packet types) are
    modelled as `Nat`; the agent only compares them for equality.
-/

set_option autoImplicit false

namespace MQTTAgent

/-- Status codes of the opaque coreMQTT library (MQTTStatus_t). -/
inductive MQTTStatus where
  | MQTTSuccess
  | MQTTBadParameter
  | MQTTNoMemory
  | MQTTSendFailed
  | MQTTRecvFailed
  | MQTTBadResponse
  | MQTTServerRefused
  | MQTTNoDataAvailable
  | MQTTIllegalState
  | MQTTStateCollision
  | MQTTKeepAliveTimeout
  deriving DecidableEq, Repr

/-- Quality-of-service levels of the coreMQTT library (MQTTQoS_t). -/
inductive MQTTQoS where
  | MQTTQoS0
  | MQTTQoS1
  | MQTTQoS2
  deriving DecidableEq, Repr

/-- Operation kinds dispatched by the agent.  Modelled from the spec: the
tags are declared in core_mqtt_agent.h, which is not part of the sources;
the five kinds and their meaning are given by the data model of the spec
and by the switch in prvMQTTAgentLoop. -/
inductive MQTTOperationType where
  | MQTT_OP_RECEIVE
  | MQTT_OP_PUBLISH
  | MQTT_OP_SUBSCRIBE
  | MQTT_OP_UNSUBSCRIBE
  | MQTT_OP_STOP
  deriving DecidableEq, Repr

/-- Modelled from the spec: MQTTOperation_t is declared in the missing
header core_mqtt_agent.h.  `opId` is the identity of the operation (the C
pointer), `qos` stands for info.pPublishInfo->qos of a publish payload,
`packetIdentifier` is the uint16_t correlation id field assigned at
dispatch, and `hasCallback` records whether the callback function pointer
is non-NULL. -/
structure MQTTOperation where
  opId : Nat
  type : MQTTOperationType
  qos : MQTTQoS
  packetIdentifier : Nat
  hasCallback : Bool
  deriving DecidableEq, Repr

/-- Capacity of the pending table and of the operations queue
(MQTT_AGENT_MAX_CONCURRENT_OPERATIONS in core_mqtt_agent.c, line 63). -/
def MQTT_AGENT_MAX_CONCURRENT_OPERATIONS : Nat := 5

/-- Packet type byte of a PUBACK packet (coreMQTT serializer constant). -/
def MQTT_PACKET_TYPE_PUBACK : Nat := 0x40

/-- Packet type byte of a SUBACK packet (coreMQTT serializer constant). -/
def MQTT_PACKET_TYPE_SUBACK : Nat := 0x90

/-- Packet type byte of an UNSUBACK packet (coreMQTT serializer constant). -/
def MQTT_PACKET_TYPE_UNSUBACK : Nat := 0xB0

/-- The pending-operation table: the static array
`pendingOperations[MQTT_AGENT_MAX_CONCURRENT_OPERATIONS]` of operation
pointers, a slot being NULL when free. -/
abbrev PendingTable := List (Option MQTTOperation)

/-- Embeds addPendingOperation (core_mqtt_agent.c lines 120-136): scan the
slots in order, store the operation in the first NULL slot and return
pdTRUE; return pdFALSE leaving the table unchanged when every slot is
occupied. -/
def addPendingOperation : PendingTable → MQTTOperation → Bool × PendingTable
  | [], _ => (false, [])
  | none :: rest, pOperation => (true, some pOperation :: rest)
  | some q :: rest, pOperation =>
    let r := addPendingOperation rest pOperation
    (r.1, some q :: r.2)

/-- Embeds getPendingOperation (core_mqtt_agent.c lines 138-156): scan the
slots in order for an occupied slot whose packetIdentifier matches, clear
that slot and return its operation; return NULL when no slot matches. -/
def getPendingOperation : PendingTable → Nat → Option MQTTOperation × PendingTable
  | [], _ => (none, [])
  | none :: rest, packetIdentifier =>
    let r := getPendingOperation rest packetIdentifier
    (r.1, none :: r.2)
  | some q :: rest, packetIdentifier =>
    if q.packetIdentifier = packetIdentifier then (some q, none :: rest)
    else
      let r := getPendingOperation rest packetIdentifier
      (r.1, some q :: r.2)

/-- Checks whether some occupied slot of the table carries the given packet
identifier. -/
def idInTable : PendingTable → Nat → Bool
  | [], _ => false
  | none :: rest, packetIdentifier => idInTable rest packetIdentifier
  | some q :: rest, packetIdentifier =>
    decide (q.packetIdentifier = packetIdentifier) || idInTable rest packetIdentifier

/-- Checks whether every slot of the table is occupied. -/
def tableFull : PendingTable → Bool
  | [] => true
  | none :: _ => false
  | some _ :: rest => tableFull rest

/-- Number of occupied slots holding an operation with the given identity. -/
def occursPending : PendingTable → Nat → Nat
  | [], _ => 0
  | none :: rest, i => occursPending rest i
  | some q :: rest, i => (if q.opId = i then 1 else 0) + occursPending rest i

/-- Checks whether every operation stored in the table has a non-NULL
callback pointer. -/
def tableHasCallbacks : PendingTable → Bool
  | [] => true
  | none :: rest => tableHasCallbacks rest
  | some q :: rest => q.hasCallback && tableHasCallbacks rest

/-- Callback-invocation events: the identity of the completed operation and
the status handed to its callback. -/
abbrev CallbackEvents := List (Nat × MQTTStatus)

/-- Number of events completing the operation with the given identity. -/
def evCount : CallbackEvents → Nat → Nat
  | [], _ => 0
  | e :: rest, i => (if e.1 = i then 1 else 0) + evCount rest i

/-- Models `pOperation->callback( pOperation, status )`: a recorded event
when the callback pointer is non-NULL, a crash (second component true) when
the C code would call a NULL function pointer. -/
def invokeCallback (pOperation : MQTTOperation) (status : MQTTStatus) :
    CallbackEvents × Bool :=
  if pOperation.hasCallback then ([(pOperation.opId, status)], false)
  else ([], true)

/-- Models xQueueSend on the operations queue created with capacity
MQTT_AGENT_MAX_CONCURRENT_OPERATIONS: append when a slot is free, fail
leaving the queue unchanged when full. -/
def xQueueSend (queue : List MQTTOperation) (pOperation : MQTTOperation) :
    Bool × List MQTTOperation :=
  if queue.length < MQTT_AGENT_MAX_CONCURRENT_OPERATIONS then
    (true, queue ++ [pOperation])
  else (false, queue)

/-- Values the opaque protocol engine returns during one dispatch:
`packetId` is the value of MQTT_GetPacketId, `status` the MQTTStatus_t of
the MQTT_ProcessLoop / MQTT_Publish / MQTT_Subscribe / MQTT_Unsubscribe
call made by that dispatch. -/
structure MQTTProtoResult where
  packetId : Nat
  status : MQTTStatus
  deriving DecidableEq, Repr

/-- Outcome of dispatching one dequeued operation: the queue and pending
table afterwards, the callback events fired, and whether the program
halted (configASSERT failure or NULL-callback call) inside the dispatch. -/
structure DispatchResult where
  queue : List MQTTOperation
  pending : PendingTable
  events : CallbackEvents
  halted : Bool
  deriving DecidableEq, Repr

/-- Embeds the switch of prvMQTTAgentLoop (core_mqtt_agent.c lines
175-254) on one dequeued operation.  `queue` is the operations queue after
the dequeue.  MQTT_OP_RECEIVE runs MQTT_ProcessLoop, asserts its success
and re-enqueues the same operation; MQTT_OP_PUBLISH fetches a packet id
for QoS > 0, submits, and either completes immediately (failure or QoS 0)
or parks the operation in the pending table under configASSERT;
MQTT_OP_SUBSCRIBE and MQTT_OP_UNSUBSCRIBE submit and do the same;
MQTT_OP_STOP resets the queue and completes itself. -/
def dispatchOp (env : MQTTProtoResult) (queue : List MQTTOperation)
    (pending : PendingTable) (pOperation : MQTTOperation) : DispatchResult :=
  match pOperation.type with
  | .MQTT_OP_RECEIVE =>
    if env.status = .MQTTSuccess then
      { queue := (xQueueSend queue pOperation).2, pending := pending,
        events := [], halted := false }
    else
      { queue := queue, pending := pending, events := [], halted := true }
  | .MQTT_OP_PUBLISH =>
    let packetIdentifier := if pOperation.qos ≠ .MQTTQoS0 then env.packetId else 0
    if env.status ≠ .MQTTSuccess ∨ pOperation.qos = .MQTTQoS0 then
      let c := invokeCallback pOperation env.status
      { queue := queue, pending := pending, events := c.1, halted := c.2 }
    else
      let r := addPendingOperation pending
        { pOperation with packetIdentifier := packetIdentifier }
      { queue := queue, pending := r.2, events := [], halted := !r.1 }
  | .MQTT_OP_SUBSCRIBE =>
    if env.status ≠ .MQTTSuccess then
      let c := invokeCallback pOperation env.status
      { queue := queue, pending := pending, events := c.1, halted := c.2 }
    else
      let r := addPendingOperation pending
        { pOperation with packetIdentifier := env.packetId }
      { queue := queue, pending := r.2, events := [], halted := !r.1 }
  | .MQTT_OP_UNSUBSCRIBE =>
    if env.status ≠ .MQTTSuccess then
      let c := invokeCallback pOperation env.status
      { queue := queue, pending := pending, events := c.1, halted := c.2 }
    else
      let r := addPendingOperation pending
        { pOperation with packetIdentifier := env.packetId }
      { queue := queue, pending := r.2, events := [], halted := !r.1 }
  | .MQTT_OP_STOP =>
    let c := invokeCallback pOperation .MQTTSuccess
    { queue := [], pending := pending, events := c.1, halted := c.2 }

/-- State of the agent visible to the worker loop: the operations queue,
the pending table and the isAgentRunning flag. -/
structure AgentState where
  queue : List MQTTOperation
  pending : PendingTable
  isAgentRunning : Bool
  deriving DecidableEq, Repr

/-- How a bounded run of the worker loop ended: the loop exited through its
queue-receive-timeout branch (then deleted the queue and cleared the
running flag), the program halted inside a dispatch, or the fuel ran out
with the loop still live. -/
inductive RunOutcome where
  | exited
  | halted
  | fuelOut
  deriving DecidableEq, Repr

/-- Result of a bounded run of the worker loop: final state, concatenated
callback events in order, and how the run ended. -/
structure RunResult where
  state : AgentState
  events : CallbackEvents
  outcome : RunOutcome
  deriving DecidableEq, Repr

/-- Embeds the for(;;) body of prvMQTTAgentLoop (core_mqtt_agent.c lines
169-266), run for at most `fuel` iterations, the protocol engine answering
the i-th dispatch with the i-th element of `envs`.  Each iteration does
xQueueReceive with a 1-tick timeout: when the queue is empty the receive
fails and the loop breaks, then vQueueDelete runs and isAgentRunning is
cleared; otherwise the head operation is dispatched and the loop
continues unless the dispatch halted the program. -/
def prvMQTTAgentLoop : Nat → List MQTTProtoResult → AgentState → RunResult
  | 0, _, st => { state := st, events := [], outcome := .fuelOut }
  | Nat.succ fuel, envs, st =>
    match st.queue with
    | [] =>
      { state := { queue := [], pending := st.pending, isAgentRunning := false },
        events := [], outcome := .exited }
    | pOperation :: rest =>
      let env := envs.headD { packetId := 0, status := .MQTTSuccess }
      let d := dispatchOp env rest st.pending pOperation
      if d.halted then
        { state := { queue := d.queue, pending := d.pending,
                     isAgentRunning := st.isAgentRunning },
          events := d.events, outcome := .halted }
      else
        let r := prvMQTTAgentLoop fuel envs.tail
          { queue := d.queue, pending := d.pending, isAgentRunning := true }
        { state := r.state, events := d.events ++ r.events, outcome := r.outcome }

/-- Packet metadata handed to MQTTAgent_ProcessEvent (MQTTPacketInfo_t):
only the packet type byte is inspected. -/
structure MQTTPacketInfo where
  type : Nat
  deriving DecidableEq, Repr

/-- Deserialized packet metadata handed to MQTTAgent_ProcessEvent
(MQTTDeserializedInfo_t): the packet identifier and the deserialization
status. -/
structure MQTTDeserializedInfo where
  packetIdentifier : Nat
  deserializationResult : MQTTStatus
  deriving DecidableEq, Repr

/-- Checks whether a packet type byte is one of the three acknowledgment
kinds the switch of MQTTAgent_ProcessEvent handles. -/
def isAckType (t : Nat) : Bool :=
  t == MQTT_PACKET_TYPE_PUBACK || t == MQTT_PACKET_TYPE_SUBACK ||
    t == MQTT_PACKET_TYPE_UNSUBACK

/-- Outcome of MQTTAgent_ProcessEvent: the BaseType_t return value, the
pending table afterwards, the callback events fired, and whether the C
code crashed calling a NULL callback. -/
structure ProcessEventResult where
  result : Bool
  pending : PendingTable
  events : CallbackEvents
  halted : Bool
  deriving DecidableEq, Repr

/-- Embeds MQTTAgent_ProcessEvent (core_mqtt_agent.c lines 309-339):
nothing happens unless deserialization succeeded; for PUBACK, SUBACK and
UNSUBACK packets the pending table is searched for the packet identifier,
and a found operation has its callback invoked with MQTTSuccess and
pdTRUE is returned; every other path returns pdFALSE. -/
def MQTTAgent_ProcessEvent (pPacketInfo : MQTTPacketInfo)
    (pDeserializedInfo : MQTTDeserializedInfo) (pending : PendingTable) :
    ProcessEventResult :=
  if pDeserializedInfo.deserializationResult = .MQTTSuccess then
    if isAckType pPacketInfo.type then
      let r := getPendingOperation pending pDeserializedInfo.packetIdentifier
      match r.1 with
      | some pOperation =>
        let c := invokeCallback pOperation .MQTTSuccess
        { result := true, pending := r.2, events := c.1, halted := c.2 }
      | none =>
        { result := false, pending := r.2, events := [], halted := false }
    else
      { result := false, pending := pending, events := [], halted := false }
  else
    { result := false, pending := pending, events := [], halted := false }

/-- Embeds the local `MQTTOperation_t operation = { 0 }` of MQTTAgent_Stop
(core_mqtt_agent.c lines 341-353) after `operation.type = MQTT_OP_STOP`:
every other field is zero-initialized, in particular the callback function
pointer is NULL. -/
def stopOperationOfAgentStop : MQTTOperation :=
  { opId := 0, type := .MQTT_OP_STOP, qos := .MQTTQoS0,
    packetIdentifier := 0, hasCallback := false }

/-- Lemma: a search that finds nothing leaves the table unchanged. -/
theorem getPendingOperation_snd_of_none (t : PendingTable) (pid : Nat)
    (h : (getPendingOperation t pid).1 = none) :
    (getPendingOperation t pid).2 = t := by
  induction t with
  | nil => rfl
  | cons s rest ih =>
    cases s with
    | none =>
      simp only [getPendingOperation] at h ⊢
      rw [ih h]
    | some q =>
      by_cases hq : q.packetIdentifier = pid
      · simp only [getPendingOperation, if_pos hq] at h
        exact Option.noConfusion h
      · simp only [getPendingOperation, if_neg hq] at h ⊢
        rw [ih h]

/-- Lemma: a search for an identifier carried by no occupied slot finds
nothing and leaves the table unchanged. -/
theorem getPendingOperation_of_not_in (t : PendingTable) (pid : Nat)
    (h : idInTable t pid = false) :
    getPendingOperation t pid = (none, t) := by
  induction t with
  | nil => rfl
  | cons s rest ih =>
    cases s with
    | none =>
      simp only [idInTable] at h
      simp only [getPendingOperation, ih h]
    | some q =>
      simp only [idInTable, Bool.or_eq_false_iff, decide_eq_false_iff_not] at h
      simp only [getPendingOperation, if_neg h.1, ih h.2]

/-- Lemma: an operation returned by a search is stored in the table. -/
theorem getPendingOperation_mem (t : PendingTable) (pid : Nat)
    (op : MQTTOperation) (h : (getPendingOperation t pid).1 = some op) :
    some op ∈ t := by
  induction t with
  | nil => simp [getPendingOperation] at h
  | cons s rest ih =>
    cases s with
    | none =>
      simp only [getPendingOperation] at h
      exact List.mem_cons_of_mem _ (ih h)
    | some q =>
      by_cases hq : q.packetIdentifier = pid
      · simp only [getPendingOperation, if_pos hq, Option.some.injEq] at h
        exact h ▸ List.mem_cons_self _ _
      · simp only [getPendingOperation, if_neg hq] at h
        exact List.mem_cons_of_mem _ (ih h)

/-- Lemma: removing a found operation lowers the count of slots carrying
its identity by exactly one. -/
theorem getPendingOperation_occurs (t : PendingTable) (pid : Nat)
    (op : MQTTOperation) (t2 : PendingTable)
    (h : getPendingOperation t pid = (some op, t2)) :
    occursPending t2 op.opId + 1 = occursPending t op.opId := by
  induction t generalizing t2 with
  | nil => simp [getPendingOperation] at h
  | cons s rest ih =>
    cases s with
    | none =>
      rcases hr : getPendingOperation rest pid with ⟨r1, r2⟩
      simp only [getPendingOperation, hr, Prod.mk.injEq] at h
      obtain ⟨h1, h2⟩ := h
      subst h1
      subst h2
      simp only [occursPending]
      exact ih r2 hr
    | some q =>
      by_cases hq : q.packetIdentifier = pid
      · simp only [getPendingOperation, if_pos hq, Prod.mk.injEq,
          Option.some.injEq] at h
        obtain ⟨h1, h2⟩ := h
        subst h1; subst h2
        simp [occursPending]
        omega
      · rcases hr : getPendingOperation rest pid with ⟨r1, r2⟩
        simp only [getPendingOperation, if_neg hq, hr, Prod.mk.injEq] at h
        obtain ⟨h1, h2⟩ := h
        subst h1
        subst h2
        simp only [occursPending]
        have := ih r2 hr
        omega

/-- Lemma: inserting into a full table fails and leaves the table
unchanged. -/
theorem addPendingOperation_of_full (t : PendingTable) (op : MQTTOperation)
    (h : tableFull t = true) :
    addPendingOperation t op = (false, t) := by
  induction t with
  | nil => rfl
  | cons s rest ih =>
    cases s with
    | none => simp [tableFull] at h
    | some q =>
      simp only [tableFull] at h
      simp only [addPendingOperation, ih h]

/-- Lemma: inserting into a table with a free slot succeeds and overwrites
exactly one free slot with the operation. -/
theorem addPendingOperation_of_not_full (t : PendingTable)
    (op : MQTTOperation) (h : tableFull t = false) :
    (addPendingOperation t op).1 = true ∧
      ∃ i, t.get? i = some none ∧
        (addPendingOperation t op).2 = t.set i (some op) := by
  induction t with
  | nil => simp [tableFull] at h
  | cons s rest ih =>
    cases s with
    | none =>
      refine ⟨rfl, 0, rfl, rfl⟩
    | some q =>
      simp only [tableFull] at h
      obtain ⟨h1, i, hi, hset⟩ := ih h
      refine ⟨h1, i + 1, hi, ?_⟩
      simp only [addPendingOperation, List.set]
      rw [hset]

/-- Lemma: a successful insertion raises the count of slots carrying the
inserted identity by one and leaves every other identity count unchanged. -/
theorem addPendingOperation_occurs (t : PendingTable) (op : MQTTOperation)
    (i : Nat) (h : (addPendingOperation t op).1 = true) :
    occursPending (addPendingOperation t op).2 i =
      (if op.opId = i then 1 else 0) + occursPending t i := by
  induction t with
  | nil => simp [addPendingOperation] at h
  | cons s rest ih =>
    cases s with
    | none => simp [addPendingOperation, occursPending]
    | some q =>
      simp only [addPendingOperation] at h ⊢
      simp only [occursPending, ih h]
      omega

/-- Lemma: removing right after a successful insertion of a fresh
identifier returns the inserted operation and restores the original
table. -/
theorem getPendingOperation_after_add (t : PendingTable)
    (op : MQTTOperation) (hfresh : idInTable t op.packetIdentifier = false)
    (hadd : (addPendingOperation t op).1 = true) :
    getPendingOperation (addPendingOperation t op).2 op.packetIdentifier =
      (some op, t) := by
  induction t with
  | nil => simp [addPendingOperation] at hadd
  | cons s rest ih =>
    cases s with
    | none =>
      simp [addPendingOperation, getPendingOperation]
    | some q =>
      simp only [idInTable, Bool.or_eq_false_iff,
        decide_eq_false_iff_not] at hfresh
      simp only [addPendingOperation] at hadd ⊢
      simp only [getPendingOperation, if_neg hfresh.1, ih hfresh.2 hadd]

/-- Sample acknowledgable operation used in concrete scenarios; its packet
identifier equals its identity. -/
def pendingOp (k : Nat) : MQTTOperation :=
  { opId := k, type := .MQTT_OP_SUBSCRIBE, qos := .MQTTQoS1,
    packetIdentifier := k, hasCallback := true }

/-- Concrete table state with every one of the five slots occupied. -/
def fullPendingTable : PendingTable :=
  [some (pendingOp 1), some (pendingOp 2), some (pendingOp 3),
   some (pendingOp 4), some (pendingOp 5)]

/-- Concrete table state with two occupied and three free slots. -/
def samplePendingTable : PendingTable :=
  [some (pendingOp 1), none, some (pendingOp 3), none, none]

/-- Concrete table state with every slot free, as after MQTTAgent_Init
clears the array. -/
def emptyPendingTable : PendingTable := [none, none, none, none, none]

/-- Concrete QoS-1 publish operation competing for a table slot. -/
def sixthPublish : MQTTOperation :=
  { opId := 6, type := .MQTT_OP_PUBLISH, qos := .MQTTQoS1,
    packetIdentifier := 0, hasCallback := true }

/-- Embeds the static receiveOP of core_mqtt_agent.c (lines 99-102): only
the type field is initialized, every other field is zero, in particular the
callback pointer is NULL (it is never invoked). -/
def receiveOP : MQTTOperation :=
  { opId := 100, type := .MQTT_OP_RECEIVE, qos := .MQTTQoS0,
    packetIdentifier := 0, hasCallback := false }

/-- Concrete stop operation carrying a completion callback. -/
def stopWithCallback : MQTTOperation :=
  { opId := 0, type := .MQTT_OP_STOP, qos := .MQTTQoS0,
    packetIdentifier := 0, hasCallback := true }

/-- Concrete subscribe operation sitting in the queue behind a stop. -/
def queuedSubscribe : MQTTOperation :=
  { opId := 1, type := .MQTT_OP_SUBSCRIBE, qos := .MQTTQoS1,
    packetIdentifier := 0, hasCallback := true }

/-- Concrete QoS-1 publish operation resident in the pending table. -/
def residentPublish : MQTTOperation :=
  { opId := 2, type := .MQTT_OP_PUBLISH, qos := .MQTTQoS1,
    packetIdentifier := 7, hasCallback := true }

/-- Lemma: membership in a table whose stored operations all have
callbacks gives a callback. -/
theorem tableHasCallbacks_mem (t : PendingTable) (op : MQTTOperation)
    (hall : tableHasCallbacks t = true) (hmem : some op ∈ t) :
    op.hasCallback = true := by
  induction t with
  | nil => simp at hmem
  | cons s rest ih =>
    rcases List.mem_cons.mp hmem with heq | htail
    · subst heq
      simp only [tableHasCallbacks, Bool.and_eq_true] at hall
      exact hall.1
    · cases s with
      | none =>
        simp only [tableHasCallbacks] at hall
        exact ih hall htail
      | some q =>
        simp only [tableHasCallbacks, Bool.and_eq_true] at hall
        exact ih hall.2 htail

/-- Claim C2: when every pending-table slot is occupied and a QoS-1
publish whose protocol submission succeeded is dispatched, the code runs
configASSERT(addPendingOperation(...) == pdTRUE) on a failed insertion:
the program halts, no completion callback is invoked, and the table is
unmodified — the admission failure is an abort, not a reported failure. -/
theorem table_full_asserts_without_completion :
    dispatchOp { packetId := 42, status := .MQTTSuccess } [] fullPendingTable
        sixthPublish =
      { queue := [], pending := fullPendingTable, events := [],
        halted := true } := by decide

/-- Claim C3: the stop operation MQTTAgent_Stop enqueues is the
zero-initialized local struct, whose callback pointer is NULL; dispatching
it crashes the worker in the MQTT_OP_STOP case instead of invoking a
completion callback, so the worker never exits cleanly. -/
theorem agent_stop_operation_crashes_worker :
    dispatchOp { packetId := 0, status := .MQTTSuccess } [] emptyPendingTable
        stopOperationOfAgentStop =
      { queue := [], pending := emptyPendingTable, events := [],
        halted := true } := by decide

/-- Claim C4 counterexample: starting an iteration with an empty queue,
the bounded xQueueReceive times out and the worker does not loop again as
a no-op: it exits the loop, and the queue is deleted and the running flag
cleared — refuting that a receive timeout never causes the worker to
exit. -/
theorem queue_timeout_exits_loop :
    prvMQTTAgentLoop 2 []
        { queue := [], pending := emptyPendingTable, isAgentRunning := true } =
      { state := { queue := [], pending := emptyPendingTable,
                   isAgentRunning := false },
        events := [], outcome := .exited } := by decide

/-- Claim C4 amended: on every iteration of the worker loop in which the
bounded-timeout queue receive yields no command, the worker breaks out of
the loop, deletes the queue and clears the running flag, dispatching
nothing; this timeout path is the worker's exit mechanism after a Stop
resets the queue. -/
theorem queue_timeout_exit_behavior (n : Nat) (envs : List MQTTProtoResult)
    (p : PendingTable) :
    prvMQTTAgentLoop (n + 1) envs
        { queue := [], pending := p, isAgentRunning := true } =
      { state := { queue := [], pending := p, isAgentRunning := false },
        events := [], outcome := .exited } := rfl

/-- Claim C6: a dispatched publish whose QoS is 0 or whose protocol
submission returned a non-success status completes immediately within the
same dispatch with the resulting status, and the pending table (and
queue) are untouched. -/
theorem publish_immediate_completion (env : MQTTProtoResult)
    (q : List MQTTOperation) (p : PendingTable) (op : MQTTOperation)
    (hty : op.type = .MQTT_OP_PUBLISH) (hcb : op.hasCallback = true)
    (h : op.qos = .MQTTQoS0 ∨ env.status ≠ .MQTTSuccess) :
    dispatchOp env q p op =
      { queue := q, pending := p, events := [(op.opId, env.status)],
        halted := false } := by
  have hcond : env.status ≠ .MQTTSuccess ∨ op.qos = .MQTTQoS0 := h.symm
  simp [dispatchOp, hty, if_pos hcond, invokeCallback, hcb]

/-- Witness for claim C6 at a concrete QoS-0 publish with a successful
submission. -/
theorem publish_immediate_completion_witness :
    dispatchOp { packetId := 5, status := .MQTTSuccess } [] emptyPendingTable
        { opId := 8, type := .MQTT_OP_PUBLISH, qos := .MQTTQoS0,
          packetIdentifier := 0, hasCallback := true } =
      { queue := [], pending := emptyPendingTable,
        events := [(8, .MQTTSuccess)], halted := false } :=
  publish_immediate_completion _ _ _ _ rfl rfl (Or.inl rfl)

/-- Claim C7: removing a packet identifier right after a successful
insertion of an operation carrying it (the identifier occupying no slot
beforehand, per the table invariant) returns that exact operation and
frees its slot, restoring the original table; removing an identifier
carried by no occupied slot returns not-found and leaves every slot
unchanged. -/
theorem pending_table_remove_after_insert (t : PendingTable)
    (op : MQTTOperation) (pid : Nat) :
    (t.length = MQTT_AGENT_MAX_CONCURRENT_OPERATIONS →
      idInTable t op.packetIdentifier = false →
      (addPendingOperation t op).1 = true →
      getPendingOperation (addPendingOperation t op).2 op.packetIdentifier =
        (some op, t)) ∧
    (t.length = MQTT_AGENT_MAX_CONCURRENT_OPERATIONS →
      idInTable t pid = false →
      getPendingOperation t pid = (none, t)) :=
  ⟨fun _ h1 h2 => getPendingOperation_after_add t op h1 h2,
   fun _ h => getPendingOperation_of_not_in t pid h⟩

/-- Witness for claim C7: insert the operation with identifier 6 into the
sample table, remove it again and get the exact operation and the original
table back; removing the absent identifier 9 returns not-found with the
table intact. -/
theorem pending_table_remove_after_insert_witness :
    getPendingOperation
        (addPendingOperation samplePendingTable (pendingOp 6)).2
        (pendingOp 6).packetIdentifier = (some (pendingOp 6), samplePendingTable) ∧
    getPendingOperation samplePendingTable 9 = (none, samplePendingTable) :=
  ⟨(pending_table_remove_after_insert samplePendingTable (pendingOp 6) 9).1
      (by decide) (by decide) (by decide),
   (pending_table_remove_after_insert samplePendingTable (pendingOp 6) 9).2
      (by decide) (by decide)⟩

/-- Claim C8: the pending table has exactly five slots
(MQTT_AGENT_MAX_CONCURRENT_OPERATIONS = 5); insertion into a table whose
every slot is occupied fails without modifying any slot, and insertion
into a table with a free slot succeeds, overwriting exactly one free slot
with the operation. -/
theorem pending_table_capacity (t : PendingTable) (op : MQTTOperation) :
    MQTT_AGENT_MAX_CONCURRENT_OPERATIONS = 5 ∧
    (tableFull t = true → addPendingOperation t op = (false, t)) ∧
    (tableFull t = false → (addPendingOperation t op).1 = true ∧
      ∃ i, t.get? i = some none ∧
        (addPendingOperation t op).2 = t.set i (some op)) :=
  ⟨rfl, addPendingOperation_of_full t op, addPendingOperation_of_not_full t op⟩

/-- Witness for claim C8: the sixth publish is rejected by the full table
and accepted by the table with free slots, where it occupies exactly one
previously free slot. -/
theorem pending_table_capacity_witness :
    addPendingOperation fullPendingTable sixthPublish = (false, fullPendingTable) ∧
    ((addPendingOperation samplePendingTable sixthPublish).1 = true ∧
      ∃ i, samplePendingTable.get? i = some none ∧
        (addPendingOperation samplePendingTable sixthPublish).2 =
          samplePendingTable.set i (some sixthPublish)) :=
  ⟨(pending_table_capacity fullPendingTable sixthPublish).2.1 (by decide),
   (pending_table_capacity samplePendingTable sixthPublish).2.2 (by decide)⟩

/-- Claim C9: a dispatched Receive command whose MQTT_ProcessLoop call
returns MQTTSuccess is re-enqueued onto the command queue (which has a
free slot, one element having just been dequeued), with no other effect;
a non-success status from MQTT_ProcessLoop fails configASSERT and stops
the agent instead of being ignored, before any re-enqueue. -/
theorem receive_reenqueue_and_fatal_status (env : MQTTProtoResult)
    (q : List MQTTOperation) (p : PendingTable) (op : MQTTOperation)
    (hty : op.type = .MQTT_OP_RECEIVE) :
    (env.status = .MQTTSuccess →
      q.length < MQTT_AGENT_MAX_CONCURRENT_OPERATIONS →
      dispatchOp env q p op =
        { queue := q ++ [op], pending := p, events := [], halted := false }) ∧
    (env.status ≠ .MQTTSuccess →
      dispatchOp env q p op =
        { queue := q, pending := p, events := [], halted := true }) := by
  constructor
  · intro hs hlen
    simp [dispatchOp, hty, hs, xQueueSend, hlen]
  · intro hs
    simp [dispatchOp, hty, hs]

/-- Witness for claim C9: the resident receive command is re-enqueued on
a successful process-loop call and halts the agent on a receive
failure. -/
theorem receive_reenqueue_witness :
    dispatchOp { packetId := 0, status := .MQTTSuccess } [] emptyPendingTable
        receiveOP =
      { queue := [receiveOP], pending := emptyPendingTable, events := [],
        halted := false } ∧
    dispatchOp { packetId := 0, status := .MQTTRecvFailed } [] emptyPendingTable
        receiveOP =
      { queue := [], pending := emptyPendingTable, events := [],
        halted := true } :=
  ⟨(receive_reenqueue_and_fatal_status _ [] _ receiveOP rfl).1 rfl (by decide),
   (receive_reenqueue_and_fatal_status _ [] _ receiveOP rfl).2 (by decide)⟩

/-- Claim C5: an inbound acknowledgment event is ignored with no effect
when deserialization failed; for an acknowledgment packet kind whose
identifier matches a pending entry, that entry is removed and its
completion invoked exactly once with success; when no occupied slot
carries the identifier (including a repeated acknowledgment for an
already-resolved one) the event is silently dropped with no effect. -/
theorem process_event_ack_resolution :
    (∀ (pk : MQTTPacketInfo) (di : MQTTDeserializedInfo) (p : PendingTable),
      di.deserializationResult ≠ .MQTTSuccess →
      MQTTAgent_ProcessEvent pk di p =
        { result := false, pending := p, events := [], halted := false }) ∧
    (∀ (pk : MQTTPacketInfo) (di : MQTTDeserializedInfo)
      (p p2 : PendingTable) (op : MQTTOperation),
      di.deserializationResult = .MQTTSuccess → isAckType pk.type = true →
      getPendingOperation p di.packetIdentifier = (some op, p2) →
      op.hasCallback = true →
      MQTTAgent_ProcessEvent pk di p =
        { result := true, pending := p2,
          events := [(op.opId, .MQTTSuccess)], halted := false }) ∧
    (∀ (pk : MQTTPacketInfo) (di : MQTTDeserializedInfo) (p : PendingTable),
      di.deserializationResult = .MQTTSuccess →
      (getPendingOperation p di.packetIdentifier).1 = none →
      MQTTAgent_ProcessEvent pk di p =
        { result := false, pending := p, events := [], halted := false }) := by
  refine ⟨?_, ?_, ?_⟩
  · intro pk di p h
    simp [MQTTAgent_ProcessEvent, h]
  · intro pk di p p2 op h1 h2 h3 h4
    simp [MQTTAgent_ProcessEvent, h1, h2, h3, invokeCallback, h4]
  · intro pk di p h1 h2
    by_cases h3 : isAckType pk.type = true
    · have hsnd := getPendingOperation_snd_of_none p di.packetIdentifier h2
      simp [MQTTAgent_ProcessEvent, h1, h3, h2, hsnd]
    · simp [MQTTAgent_ProcessEvent, h1, h3]

/-- Packet metadata of a concrete PUBACK event. -/
def ackPacketInfo : MQTTPacketInfo := { type := MQTT_PACKET_TYPE_PUBACK }

/-- Deserialized metadata of a concrete successful acknowledgment for
packet identifier 1. -/
def ackDeserInfo1 : MQTTDeserializedInfo :=
  { packetIdentifier := 1, deserializationResult := .MQTTSuccess }

/-- Witness for claim C5: a failed deserialization is dropped; a matching
acknowledgment for identifier 1 removes the entry and fires its callback
once; an acknowledgment for the absent identifier 9 is dropped with no
effect. -/
theorem process_event_ack_resolution_witness :
    MQTTAgent_ProcessEvent ackPacketInfo
        { packetIdentifier := 1, deserializationResult := .MQTTBadResponse }
        samplePendingTable =
      { result := false, pending := samplePendingTable, events := [],
        halted := false } ∧
    MQTTAgent_ProcessEvent ackPacketInfo ackDeserInfo1 samplePendingTable =
      { result := true,
        pending := [none, none, some (pendingOp 3), none, none],
        events := [((pendingOp 1).opId, .MQTTSuccess)], halted := false } ∧
    MQTTAgent_ProcessEvent ackPacketInfo
        { packetIdentifier := 9, deserializationResult := .MQTTSuccess }
        samplePendingTable =
      { result := false, pending := samplePendingTable, events := [],
        halted := false } :=
  ⟨process_event_ack_resolution.1 ackPacketInfo _ samplePendingTable (by decide),
   process_event_ack_resolution.2.1 ackPacketInfo ackDeserInfo1
     samplePendingTable [none, none, some (pendingOp 3), none, none]
     (pendingOp 1) rfl (by decide) (by decide) rfl,
   process_event_ack_resolution.2.2 ackPacketInfo _ samplePendingTable rfl
     (by decide)⟩

/-- Claim C10: MQTTAgent_ProcessEvent (on a table whose stored operations
all carry callbacks, so every callback call returns) yields pdTRUE exactly
when deserialization succeeded, the packet kind is one of the three
acknowledgment kinds, and the packet identifier matches an occupied
pending slot; every other input yields pdFALSE. -/
theorem process_event_result_iff (pk : MQTTPacketInfo)
    (di : MQTTDeserializedInfo) (p : PendingTable)
    (hcb : tableHasCallbacks p = true) :
    (MQTTAgent_ProcessEvent pk di p).halted = false ∧
    ((MQTTAgent_ProcessEvent pk di p).result = true ↔
      (di.deserializationResult = .MQTTSuccess ∧ isAckType pk.type = true ∧
        ((getPendingOperation p di.packetIdentifier).1).isSome = true)) := by
  by_cases h1 : di.deserializationResult = .MQTTSuccess
  · by_cases h2 : isAckType pk.type = true
    · rcases hr : (getPendingOperation p di.packetIdentifier).1 with _ | op
      · simp [MQTTAgent_ProcessEvent, h1, h2, hr]
      · have hmem := getPendingOperation_mem p di.packetIdentifier op hr
        have hop := tableHasCallbacks_mem p op hcb hmem
        simp [MQTTAgent_ProcessEvent, h1, h2, hr, invokeCallback, hop]
    · simp [MQTTAgent_ProcessEvent, h1, h2]
  · simp [MQTTAgent_ProcessEvent, h1]

/-- Witness for claim C10 at a concrete matching PUBACK for identifier 3
on the sample table. -/
theorem process_event_result_iff_witness :
    (MQTTAgent_ProcessEvent ackPacketInfo
        { packetIdentifier := 3, deserializationResult := .MQTTSuccess }
        samplePendingTable).halted = false ∧
    ((MQTTAgent_ProcessEvent ackPacketInfo
        { packetIdentifier := 3, deserializationResult := .MQTTSuccess }
        samplePendingTable).result = true ↔
      (({ packetIdentifier := 3, deserializationResult := .MQTTSuccess }
          : MQTTDeserializedInfo).deserializationResult = .MQTTSuccess ∧
        isAckType ackPacketInfo.type = true ∧
        ((getPendingOperation samplePendingTable
            ({ packetIdentifier := 3, deserializationResult := .MQTTSuccess }
              : MQTTDeserializedInfo).packetIdentifier).1).isSome = true)) :=
  process_event_result_iff ackPacketInfo _ samplePendingTable (by decide)

/-- Claim C1 counterexample: with a stop operation at the head of the
queue, a subscribe operation queued behind it and a publish operation
resident in the pending table, the worker completes only the stop: it
resets the queue, exits, and neither the queued subscribe (identity 1)
nor the resident publish (identity 2) ever receives a completion call,
refuting that every operation's completion fires exactly once on the
forced-stop path. -/
theorem stop_discards_queued_and_pending_completions :
    prvMQTTAgentLoop 3 [{ packetId := 9, status := .MQTTSuccess }]
        { queue := [stopWithCallback, queuedSubscribe],
          pending := [some residentPublish, none, none, none, none],
          isAgentRunning := true } =
      { state := { queue := [],
                   pending := [some residentPublish, none, none, none, none],
                   isAgentRunning := false },
        events := [(stopWithCallback.opId, .MQTTSuccess)],
        outcome := .exited } ∧
    evCount [(stopWithCallback.opId, .MQTTSuccess)] queuedSubscribe.opId = 0 ∧
    evCount [(stopWithCallback.opId, .MQTTSuccess)] residentPublish.opId = 0 ∧
    occursPending [some residentPublish, none, none, none, none]
      residentPublish.opId = 1 := by decide

/-- Claim C1 amended: every operation the worker actually dispatches is
completed exactly once — a publish, subscribe or unsubscribe dispatch that
does not halt either fires its completion once immediately (leaving the
pending table untouched) or registers the operation once in the pending
table, whence a matching acknowledgment fires its completion exactly once
and removes it; a dispatched stop with a callback completes exactly once;
receive dispatches complete nothing.  Operations still in the queue when a
stop is processed and operations resident in the pending table at worker
exit receive no completion call (see the counterexample). -/
theorem completion_exactly_once_on_dispatch_paths :
    (∀ (env : MQTTProtoResult) (q : List MQTTOperation) (p : PendingTable)
      (op : MQTTOperation), op.hasCallback = true →
      (op.type = .MQTT_OP_PUBLISH ∨ op.type = .MQTT_OP_SUBSCRIBE ∨
        op.type = .MQTT_OP_UNSUBSCRIBE) →
      (dispatchOp env q p op).halted = false →
      ((dispatchOp env q p op).events = [(op.opId, env.status)] ∧
        (dispatchOp env q p op).pending = p) ∨
      ((dispatchOp env q p op).events = [] ∧
        occursPending (dispatchOp env q p op).pending op.opId =
          occursPending p op.opId + 1)) ∧
    (∀ (env : MQTTProtoResult) (q : List MQTTOperation) (p : PendingTable)
      (op : MQTTOperation), op.hasCallback = true →
      op.type = .MQTT_OP_STOP →
      dispatchOp env q p op =
        { queue := [], pending := p, events := [(op.opId, .MQTTSuccess)],
          halted := false }) ∧
    (∀ (env : MQTTProtoResult) (q : List MQTTOperation) (p : PendingTable)
      (op : MQTTOperation), op.type = .MQTT_OP_RECEIVE →
      (dispatchOp env q p op).events = []) ∧
    (∀ (pk : MQTTPacketInfo) (di : MQTTDeserializedInfo)
      (p p2 : PendingTable) (op : MQTTOperation),
      di.deserializationResult = .MQTTSuccess → isAckType pk.type = true →
      getPendingOperation p di.packetIdentifier = (some op, p2) →
      op.hasCallback = true →
      (MQTTAgent_ProcessEvent pk di p).events = [(op.opId, .MQTTSuccess)] ∧
      (MQTTAgent_ProcessEvent pk di p).pending = p2 ∧
      occursPending p2 op.opId + 1 = occursPending p op.opId) := by
  refine ⟨?_, ?_, ?_, ?_⟩
  · intro env q p op hcb hty hh
    rcases hty with hty | hty | hty
    · by_cases hc : env.status ≠ .MQTTSuccess ∨ op.qos = .MQTTQoS0
      · left
        simp [dispatchOp, hty, if_pos hc, invokeCallback, hcb]
      · right
        have hd : dispatchOp env q p op =
            { queue := q,
              pending := (addPendingOperation p
                { op with packetIdentifier :=
                    if op.qos ≠ .MQTTQoS0 then env.packetId else 0 }).2,
              events := [],
              halted := !(addPendingOperation p
                { op with packetIdentifier :=
                    if op.qos ≠ .MQTTQoS0 then env.packetId else 0 }).1 } := by
          simp [dispatchOp, hty, if_neg hc]
        rw [hd] at hh ⊢
        have hr : (addPendingOperation p
            { op with packetIdentifier :=
                if op.qos ≠ .MQTTQoS0 then env.packetId else 0 }).1 = true := by
          simpa using hh
        refine ⟨rfl, ?_⟩
        have hocc := addPendingOperation_occurs p
          { op with packetIdentifier :=
              if op.qos ≠ .MQTTQoS0 then env.packetId else 0 } op.opId hr
        simp at hocc
        simp [hocc]
        omega
    · by_cases hc : env.status ≠ .MQTTSuccess
      · left
        simp [dispatchOp, hty, if_pos hc, invokeCallback, hcb]
      · right
        have hd : dispatchOp env q p op =
            { queue := q,
              pending := (addPendingOperation p
                { op with packetIdentifier := env.packetId }).2,
              events := [],
              halted := !(addPendingOperation p
                { op with packetIdentifier := env.packetId }).1 } := by
          simp [dispatchOp, hty, if_neg hc]
        rw [hd] at hh ⊢
        have hr : (addPendingOperation p
            { op with packetIdentifier := env.packetId }).1 = true := by
          simpa using hh
        refine ⟨rfl, ?_⟩
        have hocc := addPendingOperation_occurs p
          { op with packetIdentifier := env.packetId } op.opId hr
        simp at hocc
        simp [hocc]
        omega
    · by_cases hc : env.status ≠ .MQTTSuccess
      · left
        simp [dispatchOp, hty, if_pos hc, invokeCallback, hcb]
      · right
        have hd : dispatchOp env q p op =
            { queue := q,
              pending := (addPendingOperation p
                { op with packetIdentifier := env.packetId }).2,
              events := [],
              halted := !(addPendingOperation p
                { op with packetIdentifier := env.packetId }).1 } := by
          simp [dispatchOp, hty, if_neg hc]
        rw [hd] at hh ⊢
        have hr : (addPendingOperation p
            { op with packetIdentifier := env.packetId }).1 = true := by
          simpa using hh
        refine ⟨rfl, ?_⟩
        have hocc := addPendingOperation_occurs p
          { op with packetIdentifier := env.packetId } op.opId hr
        simp at hocc
        simp [hocc]
        omega
  · intro env q p op hcb hty
    simp [dispatchOp, hty, invokeCallback, hcb]
  · intro env q p op hty
    by_cases hs : env.status = .MQTTSuccess <;> simp [dispatchOp, hty, hs]
  · intro pk di p p2 op h1 h2 h3 h4
    have hocc := getPendingOperation_occurs p di.packetIdentifier op p2 h3
    refine ⟨?_, ?_, hocc⟩ <;>
      simp [MQTTAgent_ProcessEvent, h1, h2, h3, invokeCallback, h4]

/-- Protocol-engine answer used by the amended-claim witness. -/
def sampleEnv : MQTTProtoResult := { packetId := 11, status := .MQTTSuccess }

/-- Witness for claim C1 amended: a successfully submitted subscribe is
registered once in the pending table with no immediate completion; a stop
with a callback completes exactly once; a receive completes nothing; the
acknowledgment for identifier 1 completes the matching pending operation
exactly once and removes it. -/
theorem completion_exactly_once_witness :
    (((dispatchOp sampleEnv [] emptyPendingTable queuedSubscribe).events =
        [(queuedSubscribe.opId, sampleEnv.status)] ∧
      (dispatchOp sampleEnv [] emptyPendingTable queuedSubscribe).pending =
        emptyPendingTable) ∨
     ((dispatchOp sampleEnv [] emptyPendingTable queuedSubscribe).events = [] ∧
      occursPending
          (dispatchOp sampleEnv [] emptyPendingTable queuedSubscribe).pending
          queuedSubscribe.opId =
        occursPending emptyPendingTable queuedSubscribe.opId + 1)) ∧
    dispatchOp sampleEnv [queuedSubscribe] emptyPendingTable stopWithCallback =
      { queue := [], pending := emptyPendingTable,
        events := [(stopWithCallback.opId, .MQTTSuccess)], halted := false } ∧
    (dispatchOp sampleEnv [] emptyPendingTable receiveOP).events = [] ∧
    ((MQTTAgent_ProcessEvent ackPacketInfo ackDeserInfo1
        samplePendingTable).events = [((pendingOp 1).opId, .MQTTSuccess)] ∧
      (MQTTAgent_ProcessEvent ackPacketInfo ackDeserInfo1
        samplePendingTable).pending =
        [none, none, some (pendingOp 3), none, none] ∧
      occursPending [none, none, some (pendingOp 3), none, none]
          (pendingOp 1).opId + 1 =
        occursPending samplePendingTable (pendingOp 1).opId) :=
  ⟨completion_exactly_once_on_dispatch_paths.1 sampleEnv [] emptyPendingTable
      queuedSubscribe rfl (Or.inr (Or.inl rfl)) (by decide),
   completion_exactly_once_on_dispatch_paths.2.1 sampleEnv [queuedSubscribe]
      emptyPendingTable stopWithCallback rfl rfl,
   completion_exactly_once_on_dispatch_paths.2.2.1 sampleEnv [] emptyPendingTable
      receiveOP rfl,
   completion_exactly_once_on_dispatch_paths.2.2.2 ackPacketInfo ackDeserInfo1
      samplePendingTable [none, none, some (pendingOp 3), none, none]
      (pendingOp 1) rfl (by decide) (by decide) rfl⟩

end MQTTAgent
